import Mathlib

/-!
Verification of the pgxschema migration engine.

The development shallowly embeds the Go package `pgxschema` (files
`migrator.go`, `migration.go`, `quoting.go`, `errors.go`, `pgxschema.go`):

* pure helpers (`QuotedIdent`, `QuotedTableName`, CRC-32 lock identifiers,
  plan computation, migration sorting) are translated directly as Lean
  functions;
* the effectful migration engine (`Migrator.Apply` and its helpers `lock`,
  `unlock`, `createMigrationsTable`, `GetAppliedMigrations`, `runMigration`,
  `transaction`) is embedded as explicit state passing over a `DBState`
  describing the advisory-lock/tracking-table world, together with a
  `DBBehavior` oracle that decides which database calls fail (modelling the
  connection and the `pgxmock`/`BadQueryer` stubs used by the package tests);
* wall-clock time (`time.Now`, execution durations) is abstracted to the
  constant `0`, and the MD5 checksum is abstracted to a deterministic
  fingerprint function, since no verified property depends on their values.
-/

namespace Pgxschema

/-- Migration mirrors the Go struct `Migration` (migration.go): a pending
schema change identified by `id` with SQL text `script`. -/
structure Migration where
  id : String
  script : String
deriving DecidableEq

/-- AppliedMigration mirrors the Go struct `AppliedMigration`: one row of the
tracking table.  The Go type embeds `Migration`, but rows scanned from the
database only carry the four tracking columns, so the embedded `Script` is
omitted here.  `appliedAt` and `executionTimeInMillis` are logical (wall-clock
time is outside the model). -/
structure AppliedMigration where
  id : String
  checksum : String
  executionTimeInMillis : Nat
  appliedAt : Nat
deriving DecidableEq

/-- checksumModel abstracts `Migration.MD5` (migration.go): a deterministic
content fingerprint of the script bytes.  The MD5 algorithm itself is not
embedded; determinism in the script is the only property the engine relies
on, and it holds by construction. -/
def checksumModel (script : String) : String :=
  "md5(" ++ script ++ ")"

/-- charListLeb compares two character sequences lexicographically by code
point. -/
def charListLeb : List Char → List Char → Bool
  | [], _ => true
  | _ :: _, [] => false
  | a :: as, b :: bs =>
    if a.toNat < b.toNat then true
    else if b.toNat < a.toNat then false
    else charListLeb as bs

/-- strLeb is the Go `<=` on strings: bytewise lexicographic comparison.  Go
compares the UTF-8 bytes; UTF-8 byte order coincides with code-point order,
so comparing code-point sequences decides the same relation. -/
def strLeb (a b : String) : Bool := charListLeb a.data b.data

lemma charListLeb_total : ∀ x y, charListLeb x y = true ∨ charListLeb y x = true := by
  intro x
  induction x with
  | nil => intro y; left; rfl
  | cons a as ih =>
    intro y
    rcases y with _ | ⟨b, bs⟩
    · right; rfl
    · by_cases h1 : a.toNat < b.toNat
      · left; simp [charListLeb, h1]
      · by_cases h2 : b.toNat < a.toNat
        · right; simp [charListLeb, h2]
        · rcases ih bs with h | h
          · left; simp [charListLeb, h1, h2, h]
          · right; simp [charListLeb, h1, h2, h]

lemma charListLeb_trans :
    ∀ x y z, charListLeb x y = true → charListLeb y z = true →
      charListLeb x z = true := by
  intro x
  induction x with
  | nil => intro y z _ _; rfl
  | cons a as ih =>
    intro y z hxy hyz
    rcases y with _ | ⟨b, bs⟩
    · exact absurd hxy (by simp [charListLeb])
    · rcases z with _ | ⟨c, cs⟩
      · exact absurd hyz (by simp [charListLeb])
      · simp only [charListLeb] at hxy hyz ⊢
        by_cases h1 : a.toNat < b.toNat
        · by_cases h2 : b.toNat < c.toNat
          · simp [show a.toNat < c.toNat by omega]
          · by_cases h4 : c.toNat < b.toNat
            · simp [h2, h4] at hyz
            · simp [show a.toNat < c.toNat by omega]
        · by_cases h3 : b.toNat < a.toNat
          · simp [h1, h3] at hxy
          · simp [h1, h3] at hxy
            by_cases h2 : b.toNat < c.toNat
            · simp [show a.toNat < c.toNat by omega]
            · by_cases h4 : c.toNat < b.toNat
              · simp [h2, h4] at hyz
              · simp [h2, h4] at hyz
                simp [show ¬ a.toNat < c.toNat by omega,
                  show ¬ c.toNat < a.toNat by omega]
                exact ih bs cs hxy hyz

lemma charListLeb_antisymm :
    ∀ x y, charListLeb x y = true → charListLeb y x = true → x = y := by
  intro x
  induction x with
  | nil =>
    intro y _ hyx
    rcases y with _ | ⟨b, bs⟩
    · rfl
    · exact absurd hyx (by simp [charListLeb])
  | cons a as ih =>
    intro y hxy hyx
    rcases y with _ | ⟨b, bs⟩
    · exact absurd hxy (by simp [charListLeb])
    · simp only [charListLeb] at hxy hyx
      by_cases h1 : a.toNat < b.toNat
      · simp [h1, show ¬ b.toNat < a.toNat by omega] at hyx
      · by_cases h2 : b.toNat < a.toNat
        · simp [h1, h2] at hxy
        · simp [h1, h2] at hxy hyx
          have hn : a.toNat = b.toNat := by omega
          have hab : a = b := Char.eq_of_val_eq (UInt32.ext hn)
          rw [hab, ih bs hxy hyx]

/-- migrationLE is the comparison used by `SortMigrations` (migration.go:
`sort.Slice` with `migrations[i].ID < migrations[j].ID`): ordering by `ID`
under byte/lexicographic string order. -/
def migrationLE (a b : Migration) : Prop := strLeb a.id b.id = true

instance : DecidableRel migrationLE := fun a b =>
  inferInstanceAs (Decidable (strLeb a.id b.id = true))

instance : IsTotal Migration migrationLE :=
  ⟨fun a b => charListLeb_total a.id.data b.id.data⟩

instance : IsTrans Migration migrationLE :=
  ⟨fun _ _ _ h1 h2 => charListLeb_trans _ _ _ h1 h2⟩

/-- migrationLT is the strict companion of `migrationLE`, used to state
uniqueness of the sorted plan when IDs are duplicate-free. -/
def migrationLT (a b : Migration) : Prop := strLeb b.id a.id = false

instance : IsAntisymm Migration migrationLT :=
  ⟨fun a b h1 h2 => by
    rcases charListLeb_total a.id.data b.id.data with h | h
    · exact absurd h (by simpa [strLeb] using h2)
    · exact absurd h (by simpa [strLeb] using h1)⟩

lemma migrationLT_of_le_of_ne {a b : Migration} (h1 : migrationLE a b)
    (h2 : a.id ≠ b.id) : migrationLT a b := by
  rcases hba : strLeb b.id a.id with _ | _
  · exact hba
  · exfalso
    have hdata := charListLeb_antisymm a.id.data b.id.data h1
      (by simpa [strLeb] using hba)
    exact h2 (congrArg String.mk hdata)

/-- SortMigrations embeds `SortMigrations` (migration.go lines 34-39).  The Go
`sort.Slice` produces an (unspecified) sorted permutation of the slice using
the strict `<` comparison on IDs; a sorted permutation is deterministically
realised here by insertion sort over the matching `≤` relation. -/
def SortMigrations (migrations : List Migration) : List Migration :=
  List.insertionSort migrationLE migrations

/-- computePlan embeds the plan computation inlined in `Migrator.Apply`
(migrator.go lines 97-104): keep, in supplied order, each requested migration
whose ID is not a key of the applied-migrations map, then sort the kept
subset by ID.  The Go map lookup `applied[migration.ID]` is modelled by
`List.lookup` over the association list produced by the ledger reader (most
recent binding first, matching map-assignment overwrite semantics). -/
def computePlan (applied : List (String × AppliedMigration))
    (migrations : List Migration) : List Migration :=
  SortMigrations (migrations.filter (fun mg => (applied.lookup mg.id).isNone))

/-! ### CRC-32 and advisory lock identifiers (migrator.go, quoting.go) -/

/-- crc32Poly is the reversed IEEE polynomial used by the Go
`crc32.ChecksumIEEE`. -/
def crc32Poly : Nat := 0xEDB88320

/-- crc32StepBit performs one bit step of the reflected CRC-32 computation. -/
def crc32StepBit (c : Nat) : Nat :=
  if c % 2 = 1 then (c / 2) ^^^ crc32Poly else c / 2

/-- crc32StepByte folds one input byte into the running CRC state. -/
def crc32StepByte (c b : Nat) : Nat :=
  crc32StepBit^[8] (c ^^^ b)

/-- utf8EncodeChar encodes one Unicode code point as its UTF-8 byte sequence
(Go strings are UTF-8, and `[]byte(s)` yields exactly these bytes). -/
def utf8EncodeChar (c : Nat) : List Nat :=
  if c < 0x80 then [c]
  else if c < 0x800 then
    [0xC0 ||| (c >>> 6), 0x80 ||| (c &&& 0x3F)]
  else if c < 0x10000 then
    [0xE0 ||| (c >>> 12), 0x80 ||| ((c >>> 6) &&& 0x3F), 0x80 ||| (c &&& 0x3F)]
  else
    [0xF0 ||| (c >>> 18), 0x80 ||| ((c >>> 12) &&& 0x3F),
      0x80 ||| ((c >>> 6) &&& 0x3F), 0x80 ||| (c &&& 0x3F)]

/-- strBytes lists the UTF-8 bytes of a string, as the Go `[]byte(s)` conversion does. -/
def strBytes (s : String) : List Nat :=
  s.data.foldr (fun c acc => utf8EncodeChar c.toNat ++ acc) []

/-- crc32IEEE embeds the Go function `crc32.ChecksumIEEE`: reflected CRC-32 with initial
state and final xor `0xFFFFFFFF`. -/
def crc32IEEE (s : String) : Nat :=
  ((strBytes s).foldl crc32StepByte 0xFFFFFFFF) ^^^ 0xFFFFFFFF

/-- postgresAdvisoryLockSalt is the constant salt from migrator.go /
quoting.go. -/
def postgresAdvisoryLockSalt : Nat := 542384964

/-- advisoryLockKey is the numeric advisory-lock identity computed by
`Migrator.AdvisoryLockID` (migrator.go lines 61-65): the CRC-32 of the table
name multiplied by the salt in `uint32` arithmetic (wrapping modulo 2^32). -/
def advisoryLockKey (tableName : String) : Nat :=
  (crc32IEEE tableName * postgresAdvisoryLockSalt) % 4294967296

/-- Migrator mirrors the configuration fields of the Go `Migrator` struct
(migrator.go lines 22-44).  The logger, context and sticky error fields play
no role in the verified properties and are omitted. -/
structure Migrator where
  schemaName : String
  tableName : String
deriving DecidableEq

/-- DefaultTableName is the constant from migrator.go line 15. -/
def DefaultTableName : String := "schema_migrations"

/-- NewMigrator models `NewMigrator()` with no options: blank schema and the
default tracking-table name. -/
def NewMigrator : Migrator :=
  { schemaName := "", tableName := DefaultTableName }

/-- Migrator.AdvisoryLockID embeds `Migrator.AdvisoryLockID` (migrator.go
lines 61-65): the decimal rendering (`fmt.Sprint`) of the `uint32` lock key
derived from `TableName` alone. -/
def Migrator.AdvisoryLockID (m : Migrator) : String :=
  toString (advisoryLockKey m.tableName)

/-- LockIdentifierForTable embeds `LockIdentifierForTable` (quoting.go lines
52-55): the CRC-32 widened to `int64` and multiplied by the salt.  The
product of a value below 2^32 and the salt is below 2^63, so the `int64`
multiplication never overflows and is exact integer multiplication. -/
def LockIdentifierForTable (tableName : String) : Int :=
  (crc32IEEE tableName : Int) * 542384964

/-! ### Identifier quoting (quoting.go) -/

/-- goIsSpace models `unicode.IsSpace` on the Latin-1 range (tab, newline,
vertical tab, form feed, carriage return, space, NEL, NBSP).  Space
characters above U+00FF also satisfy the Go predicate; they are outside this
model and do not occur in any property below. -/
def goIsSpace (c : Char) : Bool :=
  c.toNat == 9 || c.toNat == 10 || c.toNat == 11 || c.toNat == 12 ||
    c.toNat == 13 || c.toNat == 32 || c.toNat == 0x85 || c.toNat == 0xA0

/-- quotedIdentChars processes the identifier characters exactly as the loop
of `QuotedIdent` (quoting.go lines 30-44) does: whitespace is skipped, a
double quote is written twice (escaped by doubling), a semicolon is skipped,
and every other rune is written unchanged. -/
def quotedIdentChars (cs : List Char) : List Char :=
  cs.foldr
    (fun r acc =>
      if goIsSpace r then acc
      else if r = '\x22' then '\x22' :: '\x22' :: acc
      else if r = ';' then acc
      else r :: acc)
    []

/-- QuotedIdent embeds `QuotedIdent` (quoting.go lines 23-47): the empty
string maps to the empty string, and any other identifier is wrapped in
double quotes around its processed characters. -/
def QuotedIdent (ident : String) : String :=
  if ident = "" then ""
  else "\x22" ++ List.asString (quotedIdentChars ident.data) ++ "\x22"

/-- QuotedTableName embeds `QuotedTableName` (quoting.go lines 14-19):
`schema.table` when a schema is configured, otherwise the bare quoted table
name. -/
def QuotedTableName (schemaName tableName : String) : String :=
  if schemaName = "" then QuotedIdent tableName
  else QuotedIdent schemaName ++ "." ++ QuotedIdent tableName

/-! ### Database world

The engine talks to the database through the `Connection`/`Queryer`/
`Transactor` interfaces (pgxschema.go).  The embedding interprets each call
symbolically: `DBState` is the visible database (tracking table plus an
observation trace of every issued call), and `DBBehavior` is an oracle fixing
which calls the connection fails, standing in for the concrete connection or
the failing stubs of the package tests. -/

/-- DBOp records one database call issued by the engine, in issue order.
Every call is recorded at the moment it is attempted, whether or not the
oracle then fails it. -/
inductive DBOp where
  | acquireLock (key : Nat)
  | releaseLock (key : Nat)
  | beginTx
  | commitTx
  | rollbackTx
  | createTable
  | queryLedger
  | execScript (id : String) (script : String)
  | insertRow (id : String)
deriving DecidableEq

/-- DBState is the symbolic database: whether the tracking table exists, its
committed-or-pending rows in insertion order, and the trace of issued calls.
Inside a transaction the same record carries the pending view; rollback
restores the transactional fields from the pre-transaction snapshot. -/
structure DBState where
  tableExists : Bool
  ledger : List AppliedMigration
  trace : List DBOp
deriving DecidableEq

/-- recordOp appends one issued call to the observation trace. -/
def recordOp (st : DBState) (op : DBOp) : DBState :=
  { st with trace := st.trace ++ [op] }

/-- DBBehavior is the failure oracle for the connection: for each kind of
call it decides whether the database reports an error, and with which
message.  Script and insert failures may depend on the statement/row, as those of a
real database would. -/
structure DBBehavior where
  lockErr : Option String
  unlockErr : Option String
  beginErr : Option String
  createErr : Option String
  scriptErr : String → Option String
  insertErr : String → Option String

/-- benignDB is the all-successful connection. -/
def benignDB : DBBehavior :=
  { lockErr := none, unlockErr := none, beginErr := none, createErr := none
    scriptErr := fun _ => none, insertErr := fun _ => none }

/-- ErrNilDB is the sentinel error from errors.go. -/
def ErrNilDB : String := "Database connection is nil"

/-- errNoSuchTable stands for the database complaint produced when the
tracking table is queried before it exists. -/
def errNoSuchTable : String := "relation does not exist"

/-- TxOutcome is the way the function wrapped by `Migrator.transaction` can
finish: normally with no error, normally with an error, or by raising a
panic carrying a payload (rendered to a message as the recover branch of
migrator.go lines 212-219 does). -/
inductive TxOutcome where
  | ok
  | err (msg : String)
  | panicked (payload : String)
deriving DecidableEq

/-- Migrator.lock embeds `Migrator.lock` (migrator.go lines 136-148): a nil
connection is rejected with `ErrNilDB` before any call; otherwise
`SELECT pg_advisory_lock(key)` is issued and the oracle decides success. -/
def Migrator.lock (m : Migrator) (beh : DBBehavior) (dbNil : Bool)
    (st : DBState) : DBState × Option String :=
  if dbNil then (st, some ErrNilDB)
  else
    let st1 := recordOp st (.acquireLock (advisoryLockKey m.tableName))
    (st1, beh.lockErr)

/-- Migrator.unlock embeds `Migrator.unlock` (migrator.go lines 150-162). -/
def Migrator.unlock (m : Migrator) (beh : DBBehavior) (dbNil : Bool)
    (st : DBState) : DBState × Option String :=
  if dbNil then (st, some ErrNilDB)
  else
    let st1 := recordOp st (.releaseLock (advisoryLockKey m.tableName))
    (st1, beh.unlockErr)

/-- transaction embeds `Migrator.transaction` (migrator.go lines 202-228):
reject a nil connection; begin a transaction (the oracle may fail it); run
the wrapped function on the pending state; convert a panic into an ordinary
error exactly as the deferred recover does; on any error roll back, which
restores the transactional fields (`ledger`, `tableExists`) from the
pre-begin snapshot while the issued calls remain observed; otherwise
commit, keeping the pending changes. -/
def transaction (beh : DBBehavior) (dbNil : Bool) (st : DBState)
    (f : DBState → DBState × TxOutcome) : DBState × Option String :=
  if dbNil then (st, some ErrNilDB)
  else
    match beh.beginErr with
    | some e => (recordOp st .beginTx, some e)
    | none =>
      let (stf, out) := f (recordOp st .beginTx)
      match out with
      | .ok => (recordOp stf .commitTx, none)
      | .err e =>
        (recordOp { stf with ledger := st.ledger, tableExists := st.tableExists }
          .rollbackTx, some e)
      | .panicked p =>
        (recordOp { stf with ledger := st.ledger, tableExists := st.tableExists }
          .rollbackTx, some p)

/-- Migrator.createMigrationsTable embeds `createMigrationsTable`
(migrator.go lines 119-134): inside its own transaction, issue the
`CREATE TABLE IF NOT EXISTS` statement; on success the tracking table exists
(idempotently). -/
def Migrator.createMigrationsTable (_m : Migrator) (beh : DBBehavior)
    (dbNil : Bool) (st : DBState) : DBState × Option String :=
  transaction beh dbNil st (fun st1 =>
    let st2 := recordOp st1 .createTable
    match beh.createErr with
    | some e => (st2, .err e)
    | none => ({ st2 with tableExists := true }, .ok))

/-- appliedLE orders tracking-table rows by id, the `ORDER BY id ASC` of the
ledger query. -/
def appliedLE (a b : AppliedMigration) : Prop := strLeb a.id b.id = true

instance : DecidableRel appliedLE := fun a b =>
  inferInstanceAs (Decidable (strLeb a.id b.id = true))

instance : IsTotal AppliedMigration appliedLE :=
  ⟨fun a b => charListLeb_total a.id.data b.id.data⟩

instance : IsTrans AppliedMigration appliedLE :=
  ⟨fun _ _ _ h1 h2 => charListLeb_trans _ _ _ h1 h2⟩

/-- selectAppliedRows is the semantics of the ledger query issued by
`GetAppliedMigrations` (migration.go lines 49-53): `SELECT id, checksum,
execution_time_in_millis, applied_at FROM <table> ORDER BY id ASC` returns
the tracking-table rows sorted ascending by id. -/
def selectAppliedRows (ledger : List AppliedMigration) : List AppliedMigration :=
  List.insertionSort appliedLE ledger

/-- buildAppliedMap folds the retrieved rows into the applied-migrations map
exactly as the loop `applied[migration.ID] = migration` does: a later row
with the same id overwrites an earlier one, which the association list
realises by binding the most recent row first. -/
def buildAppliedMap (rows : List AppliedMigration) :
    List (String × AppliedMigration) :=
  rows.foldl (fun acc r => (r.id, r) :: acc) []

/-- Migrator.GetAppliedMigrations embeds `GetAppliedMigrations`
(migration.go lines 44-70): query the tracking table (an error surfaces when
the table does not exist — the map stays empty in that case, as in Go where
the empty map and the error are both returned) and index the retrieved rows
by id. -/
def Migrator.GetAppliedMigrations (_m : Migrator) (st : DBState) :
    DBState × (List (String × AppliedMigration) × Option String) :=
  let st1 := recordOp st .queryLedger
  if st.tableExists then
    (st1, (buildAppliedMap (selectAppliedRows st.ledger), none))
  else
    (st1, ([], some errNoSuchTable))

/-- failMsg is the wrapping applied by `runMigration` (migrator.go line 173)
to a script failure: `fmt.Errorf("Migration \x27%s\x27 Failed:\n%w", id, err)`. -/
def failMsg (id msg : String) : String :=
  "Migration \x27" ++ id ++ "\x27 Failed:\n" ++ msg

/-- rowOf is the ledger row inserted for a successfully executed migration
(migrator.go lines 179-189), with time abstracted to `0`. -/
def rowOf (mg : Migration) : AppliedMigration :=
  { id := mg.id, checksum := checksumModel mg.script
    executionTimeInMillis := 0, appliedAt := 0 }

/-- Migrator.runMigration embeds `runMigration` (migrator.go lines 164-191):
execute the script (a failure is returned wrapped with the ID of the migration),
then insert the tracking row (an insert failure is returned unwrapped). -/
def Migrator.runMigration (_m : Migrator) (beh : DBBehavior) (st : DBState)
    (mg : Migration) : DBState × Option String :=
  let st1 := recordOp st (.execScript mg.id mg.script)
  match beh.scriptErr mg.script with
  | some e => (st1, some (failMsg mg.id e))
  | none =>
    let st2 := recordOp st1 (.insertRow mg.id)
    match beh.insertErr mg.id with
    | some e => (st2, some e)
    | none => ({ st2 with ledger := st2.ledger ++ [rowOf mg] }, none)

/-- runMigrationList embeds the loop over the plan in `Migrator.Apply`
(migrator.go lines 106-111): run each planned migration in order and abort
on the first error. -/
def runMigrationList (m : Migrator) (beh : DBBehavior) (st : DBState) :
    List Migration → DBState × Option String
  | [] => (st, none)
  | mg :: rest =>
    match m.runMigration beh st mg with
    | (st1, some e) => (st1, some e)
    | (st1, none) => runMigrationList m beh st1 rest

/-- applyTxBody embeds the closure passed to `m.transaction` inside
`Migrator.Apply` (migrator.go lines 91-114): read the ledger, compute the
plan, and run it. -/
def applyTxBody (m : Migrator) (beh : DBBehavior)
    (migrations : List Migration) (st : DBState) : DBState × TxOutcome :=
  match m.GetAppliedMigrations st with
  | (st1, (_, some e)) => (st1, .err e)
  | (st1, (applied, none)) =>
    match runMigrationList m beh st1 (computePlan applied migrations) with
    | (st2, some e) => (st2, .err e)
    | (st2, none) => (st2, .ok)

/-- applyBody is the part of `Migrator.Apply` between the lock and the
deferred unlock (migrator.go lines 86-114): provision the tracking table,
then run the transactional section. -/
def applyBody (m : Migrator) (beh : DBBehavior) (dbNil : Bool)
    (migrations : List Migration) (st : DBState) : DBState × Option String :=
  match m.createMigrationsTable beh dbNil st with
  | (st1, some e) => (st1, some e)
  | (st1, none) => transaction beh dbNil st1 (applyTxBody m beh migrations)

/-- combineUnlockErr is the error amalgamation of the deferred unlock in
`Migrator.Apply` (migrator.go lines 75-84): a release failure surfaces
as-is when nothing else failed, and is appended to — never replaces — an
earlier error. -/
def combineUnlockErr (bodyErr unlockErr : Option String) : Option String :=
  match unlockErr with
  | none => bodyErr
  | some u =>
    match bodyErr with
    | none => some u
    | some e =>
      some ("error unlocking while returning from other err: " ++ e ++ "\n" ++ u)

/-- Migrator.Apply embeds `Migrator.Apply` (migrator.go lines 69-117): take
the advisory lock (a failure returns before the unlock is deferred),
provision the tracking table, run the transactional section, and always
release the lock, merging a release failure into the result. -/
def Migrator.Apply (m : Migrator) (beh : DBBehavior) (dbNil : Bool)
    (migrations : List Migration) (st : DBState) : DBState × Option String :=
  match m.lock beh dbNil st with
  | (st1, some e) => (st1, some e)
  | (st1, none) =>
    let (st2, r) := applyBody m beh dbNil migrations st1
    let (st3, ur) := m.unlock beh dbNil st2
    (st3, combineUnlockErr r ur)

/-- initialDB is a fresh database: no tracking table, no rows, no calls. -/
def initialDB : DBState :=
  { tableExists := false, ledger := [], trace := [] }

/-! ### Trace observations -/

/-- scriptOps lists the script executions recorded in a trace, in order. -/
def scriptOps (tr : List DBOp) : List (String × String) :=
  tr.filterMap (fun op =>
    match op with
    | .execScript i s => some (i, s)
    | _ => none)

/-- isAcquireLock recognises advisory-lock acquisition calls. -/
def isAcquireLock : DBOp → Bool
  | .acquireLock _ => true
  | _ => false

/-- isReleaseLock recognises advisory-lock release calls. -/
def isReleaseLock : DBOp → Bool
  | .releaseLock _ => true
  | _ => false

/-- isBeginTx recognises transaction starts. -/
def isBeginTx : DBOp → Bool
  | .beginTx => true
  | _ => false

/-- isCommitTx recognises transaction commits. -/
def isCommitTx : DBOp → Bool
  | .commitTx => true
  | _ => false

/-- isInsertRow recognises ledger-row inserts. -/
def isInsertRow : DBOp → Bool
  | .insertRow _ => true
  | _ => false

/-! ### Surviving-slice embedding of the plan computation

In Go, `SortMigrations(plan)` sorts, in place, the slice it is handed.  To
state the frame property that `Apply` never reorders the slice supplied by
the caller, the two slice variables of the plan-computation section (the
`migrations` argument and the freshly `make`-allocated `plan`) are modelled
explicitly, and the three statements of that section (allocation, the append loop, the sort
call on `plan`) are applied to them. -/

/-- PlanVars is the pair of slice variables live in migrator.go lines
97-104. -/
structure PlanVars where
  migrations : List Migration
  plan : List Migration
deriving DecidableEq

/-- planSection runs the plan-computation section of `Migrator.Apply`
(migrator.go lines 97-104) on its two slice variables: `plan := make(...)`,
the filtering append loop reading `migrations`, then `SortMigrations(plan)`
which sorts the `plan` slice only. -/
def planSection (migrations : List Migration)
    (applied : List (String × AppliedMigration)) : PlanVars :=
  let vars : PlanVars := { migrations := migrations, plan := [] }
  let vars : PlanVars :=
    { vars with
      plan := vars.migrations.foldl
        (fun p mg => if (applied.lookup mg.id).isNone then p ++ [mg] else p)
        vars.plan }
  { vars with plan := SortMigrations vars.plan }

/-- strContains says that `sub` occurs contiguously inside `s`. -/
def strContains (s sub : String) : Prop :=
  ∃ p q : String, s = p ++ sub ++ q

/-! ### Decimal rendering is injective

`Migrator.AdvisoryLockID` renders the numeric lock key with `fmt.Sprint`,
modelled by `toString : Nat → String` (decimal).  The lemmas below prove the
rendering injective, so equality of lock-key strings coincides with equality
of the numeric keys. -/

lemma toDigitsCore_acc (b : Nat) :
    ∀ (f n : Nat) (ds : List Char),
      Nat.toDigitsCore b f n ds = Nat.toDigitsCore b f n [] ++ ds := by
  intro f
  induction f with
  | zero => intro n ds; simp [Nat.toDigitsCore]
  | succ f ih =>
    intro n ds
    simp only [Nat.toDigitsCore]
    by_cases h : n / b = 0
    · simp [h]
    · simp only [h, if_false]
      rw [ih (n / b) (Nat.digitChar (n % b) :: ds),
        ih (n / b) [Nat.digitChar (n % b)]]
      simp

lemma digitChar_val {d : Nat} (h : d < 10) : (Nat.digitChar d).toNat = 48 + d := by
  interval_cases d <;> rfl

lemma toDigitsCore_foldl_eq :
    ∀ (f n init : Nat), n < f →
      (Nat.toDigitsCore 10 f n []).foldl (fun acc c => acc * 10 + (c.toNat - 48))
          init =
        init * 10 ^ (Nat.toDigitsCore 10 f n []).length + n := by
  intro f
  induction f with
  | zero => intro n _ h; exact absurd h (Nat.not_lt_zero n)
  | succ f ih =>
    intro n init h
    by_cases h0 : n / 10 = 0
    · have hn : n < 10 := by omega
      have hmod : n % 10 = n := Nat.mod_eq_of_lt hn
      simp only [Nat.toDigitsCore, h0, if_true, List.foldl_cons, List.foldl_nil,
        List.length_cons, List.length_nil]
      rw [hmod, digitChar_val hn]
      simp [pow_one]
    · have hge : 10 ≤ n := by
        rcases Nat.lt_or_ge n 10 with hlt | hge
        · exact absurd (Nat.div_eq_of_lt hlt) h0
        · exact hge
      have hdiv : n / 10 < f := by
        have h1 : n / 10 < n := Nat.div_lt_self (by omega) (by norm_num)
        omega
      simp only [Nat.toDigitsCore, h0, if_false]
      rw [toDigitsCore_acc 10 f (n / 10) [Nat.digitChar (n % 10)]]
      rw [List.foldl_append, ih (n / 10) init hdiv]
      have hm : n % 10 < 10 := Nat.mod_lt n (by norm_num)
      simp only [List.foldl_cons, List.foldl_nil, List.length_append,
        List.length_cons, List.length_nil, digitChar_val hm]
      rw [pow_succ, ← mul_assoc]
      generalize init * 10 ^ (Nat.toDigitsCore 10 f (n / 10) []).length = M
      omega

lemma natRepr_injective {a b : Nat} (h : Nat.repr a = Nat.repr b) : a = b := by
  have h2 : Nat.toDigits 10 a = Nat.toDigits 10 b := congrArg String.data h
  have ha := toDigitsCore_foldl_eq (a + 1) a 0 (Nat.lt_succ_self a)
  have hb := toDigitsCore_foldl_eq (b + 1) b 0 (Nat.lt_succ_self b)
  simp only [Nat.zero_mul, Nat.zero_add] at ha hb
  have h3 : Nat.toDigitsCore 10 (a + 1) a [] = Nat.toDigitsCore 10 (b + 1) b [] := h2
  rw [h3] at ha
  omega

lemma natToString_injective {a b : Nat} (h : toString a = toString b) : a = b :=
  natRepr_injective h

/-! ### List helpers for the engine lemmas -/

lemma foldl_append_filter (c : Migration → Bool) :
    ∀ (l : List Migration) (acc : List Migration),
      l.foldl (fun p mg => if c mg then p ++ [mg] else p) acc = acc ++ l.filter c := by
  intro l
  induction l with
  | nil => intro acc; simp
  | cons mg rest ih =>
    intro acc
    by_cases h : c mg <;> simp [h, ih, List.filter_cons]

lemma buildAppliedMap_foldl :
    ∀ (rows : List AppliedMigration) (acc : List (String × AppliedMigration)),
      rows.foldl (fun a r => (r.id, r) :: a) acc =
        (rows.map (fun r => (r.id, r))).reverse ++ acc := by
  intro rows
  induction rows with
  | nil => intro acc; simp
  | cons r rest ih => intro acc; simp [ih]

lemma lookup_isSome_iff :
    ∀ (l : List (String × AppliedMigration)) (k : String),
      (l.lookup k).isSome ↔ k ∈ l.map Prod.fst := by
  intro l k
  induction l with
  | nil => simp [List.lookup]
  | cons p rest ih =>
    rcases p with ⟨a, b⟩
    by_cases h : k = a
    · subst h; simp [List.lookup]
    · have hba : (k == a) = false := beq_false_of_ne h
      simp [List.lookup, hba, ih, h]

lemma buildAppliedMap_lookup_isSome (rows : List AppliedMigration) (k : String) :
    ((buildAppliedMap rows).lookup k).isSome ↔ k ∈ rows.map AppliedMigration.id := by
  rw [buildAppliedMap, buildAppliedMap_foldl, List.append_nil, lookup_isSome_iff]
  rw [List.map_reverse, List.map_map]
  simp [Function.comp]

lemma selectAppliedRows_perm (ledger : List AppliedMigration) :
    (selectAppliedRows ledger).Perm ledger :=
  List.perm_insertionSort _ ledger

lemma mem_computePlan (applied : List (String × AppliedMigration))
    (ms : List Migration) (mg : Migration) :
    mg ∈ computePlan applied ms ↔ mg ∈ ms ∧ applied.lookup mg.id = none := by
  rw [computePlan, SortMigrations,
    (List.perm_insertionSort migrationLE _).mem_iff, List.mem_filter]
  simp [Option.isNone_iff_eq_none]

/-! ### Characterisations of the engine runs -/

/-- opsOf lists the calls of one successful migration run. -/
def opsOf (mg : Migration) : List DBOp :=
  [.execScript mg.id mg.script, .insertRow mg.id]

lemma runMigration_ok (m : Migrator) (beh : DBBehavior) (st : DBState)
    (mg : Migration) (hs : beh.scriptErr mg.script = none)
    (hi : beh.insertErr mg.id = none) :
    m.runMigration beh st mg =
      ({ st with ledger := st.ledger ++ [rowOf mg], trace := st.trace ++ opsOf mg },
       none) := by
  simp [Migrator.runMigration, hs, hi, recordOp, opsOf]

lemma runMigrationList_ok (m : Migrator) (beh : DBBehavior) :
    ∀ (l : List Migration) (st : DBState),
      (∀ mg ∈ l, beh.scriptErr mg.script = none ∧ beh.insertErr mg.id = none) →
      runMigrationList m beh st l =
        ({ st with ledger := st.ledger ++ l.map rowOf,
                   trace := st.trace ++ l.flatMap opsOf }, none) := by
  intro l
  induction l with
  | nil => intro st _; simp [runMigrationList]
  | cons mg rest ih =>
    intro st hben
    have hmg := hben mg (List.mem_cons_self mg rest)
    have hrest : ∀ st1, runMigrationList m beh st1 rest =
        ({ st1 with ledger := st1.ledger ++ rest.map rowOf,
                    trace := st1.trace ++ rest.flatMap opsOf }, none) :=
      fun st1 => ih st1 (fun x hx => hben x (List.mem_cons_of_mem mg hx))
    simp [runMigrationList, Migrator.runMigration, hmg.1, hmg.2, recordOp,
      hrest, opsOf, List.append_assoc]

lemma runMigrationList_none_ledger (m : Migrator) (beh : DBBehavior) :
    ∀ (l : List Migration) (st st' : DBState),
      runMigrationList m beh st l = (st', none) →
      st'.ledger = st.ledger ++ l.map rowOf := by
  intro l
  induction l with
  | nil =>
    intro st st' h
    simp [runMigrationList] at h
    simp [← h]
  | cons mg rest ih =>
    intro st st' h
    rcases hse : beh.scriptErr mg.script with _ | e2
    · rcases hie : beh.insertErr mg.id with _ | e3
      · simp only [runMigrationList, Migrator.runMigration, hse, hie,
          recordOp] at h
        have h2 := ih _ st' h
        rw [h2]
        simp [List.append_assoc]
      · simp [runMigrationList, Migrator.runMigration, hse, hie, recordOp] at h
    · simp [runMigrationList, Migrator.runMigration, hse, recordOp] at h

lemma runMigrationList_failAt (m : Migrator) (beh : DBBehavior) :
    ∀ (l : List Migration) (i : Nat) (st : DBState) (u : String)
      (hi : i < l.length),
      (∀ mg ∈ l.take i, beh.scriptErr mg.script = none ∧ beh.insertErr mg.id = none) →
      beh.scriptErr (l.get ⟨i, hi⟩).script = some u →
      runMigrationList m beh st l =
        ({ st with
            ledger := st.ledger ++ (l.take i).map rowOf,
            trace := st.trace ++ (l.take i).flatMap opsOf ++
              [.execScript (l.get ⟨i, hi⟩).id (l.get ⟨i, hi⟩).script] },
         some (failMsg (l.get ⟨i, hi⟩).id u)) := by
  intro l
  induction l with
  | nil => intro i st u hi; exact absurd hi (by simp)
  | cons mg rest ih =>
    intro i st u hi hben hfail
    match i with
    | 0 =>
      have hf : beh.scriptErr mg.script = some u := by simpa using hfail
      simp [runMigrationList, Migrator.runMigration, hf, recordOp]
    | i + 1 =>
      have hmg := hben mg (by simp)
      have hi' : i < rest.length := by simpa using hi
      have hben' : ∀ mg2 ∈ rest.take i,
          beh.scriptErr mg2.script = none ∧ beh.insertErr mg2.id = none := by
        intro mg2 hmg2
        exact hben mg2 (by simp [hmg2])
      have hfail' : beh.scriptErr (rest.get ⟨i, hi'⟩).script = some u := by
        simpa [List.get_cons_succ] using hfail
      have hrest : ∀ st1, runMigrationList m beh st1 rest =
          ({ st1 with
              ledger := st1.ledger ++ (rest.take i).map rowOf,
              trace := st1.trace ++ (rest.take i).flatMap opsOf ++
                [.execScript (rest.get ⟨i, hi'⟩).id (rest.get ⟨i, hi'⟩).script] },
           some (failMsg (rest.get ⟨i, hi'⟩).id u)) :=
        fun st1 => ih i st1 u hi' hben' hfail'
      simp [runMigrationList, Migrator.runMigration, hmg.1, hmg.2, recordOp,
        hrest, List.get_cons_succ, opsOf, List.append_assoc]

/-- preTxTrace lists the calls `Apply` issues between a successful lock and
the start of the migration loop: the provisioning transaction and the opening
of the execution transaction with its ledger read. -/
def preTxTrace : List DBOp :=
  [.beginTx, .createTable, .commitTx, .beginTx, .queryLedger]

lemma applyBody_eq (m : Migrator) (beh : DBBehavior) (ms : List Migration)
    (st : DBState) (hb : beh.beginErr = none) (hc : beh.createErr = none) :
    applyBody m beh false ms st =
      (match runMigrationList m beh
          { tableExists := true, ledger := st.ledger,
            trace := st.trace ++ preTxTrace }
          (computePlan (buildAppliedMap (selectAppliedRows st.ledger)) ms) with
       | (st2, none) => (recordOp st2 .commitTx, none)
       | (st2, some e) =>
         (recordOp { st2 with ledger := st.ledger, tableExists := true }
            .rollbackTx, some e)) := by
  rcases hrun : runMigrationList m beh
      { tableExists := true, ledger := st.ledger, trace := st.trace ++ preTxTrace }
      (computePlan (buildAppliedMap (selectAppliedRows st.ledger)) ms)
    with ⟨st2, r⟩
  simp only [applyBody, Migrator.createMigrationsTable, transaction,
    applyTxBody, Migrator.GetAppliedMigrations, recordOp, hb, hc,
    Bool.false_eq_true, if_false, eq_self_iff_true, if_true,
    preTxTrace] at hrun ⊢
  simp only [List.append_assoc, List.cons_append, List.nil_append] at hrun ⊢
  rw [hrun]
  rcases r with _ | e <;> simp

lemma apply_eq_combine (m : Migrator) (beh : DBBehavior) (ms : List Migration)
    (st : DBState) (hl : beh.lockErr = none) :
    m.Apply beh false ms st =
      ((recordOp
          (applyBody m beh false ms
            (recordOp st (.acquireLock (advisoryLockKey m.tableName)))).1
          (.releaseLock (advisoryLockKey m.tableName))),
       combineUnlockErr
         (applyBody m beh false ms
           (recordOp st (.acquireLock (advisoryLockKey m.tableName)))).2
         beh.unlockErr) := by
  rcases hab : applyBody m beh false ms
      (recordOp st (.acquireLock (advisoryLockKey m.tableName))) with ⟨st2, r⟩
  simp [Migrator.Apply, Migrator.lock, Migrator.unlock, hl, hab]

lemma apply_benign_eq (m : Migrator) (beh : DBBehavior) (ms : List Migration)
    (st : DBState) (hl : beh.lockErr = none) (hb : beh.beginErr = none)
    (hc : beh.createErr = none) (hu : beh.unlockErr = none)
    (hs : ∀ s, beh.scriptErr s = none) (hins : ∀ i, beh.insertErr i = none) :
    m.Apply beh false ms st =
      ({ tableExists := true,
         ledger := st.ledger ++
           (computePlan (buildAppliedMap (selectAppliedRows st.ledger)) ms).map rowOf,
         trace := st.trace ++ [.acquireLock (advisoryLockKey m.tableName)] ++
           preTxTrace ++
           (computePlan (buildAppliedMap (selectAppliedRows st.ledger)) ms).flatMap
             opsOf ++
           [.commitTx, .releaseLock (advisoryLockKey m.tableName)] }, none) := by
  rw [apply_eq_combine m beh ms st hl]
  rw [applyBody_eq m beh ms _ hb hc]
  rw [runMigrationList_ok m beh _ _
    (fun mg _ => ⟨hs mg.script, hins mg.id⟩)]
  simp [recordOp, combineUnlockErr, hu, List.append_assoc]

lemma computePlan_sorted_lt (applied : List (String × AppliedMigration))
    (ms : List Migration) (hnd : (ms.map Migration.id).Nodup) :
    List.Sorted migrationLT (computePlan applied ms) := by
  have hle : List.Sorted migrationLE (computePlan applied ms) :=
    List.sorted_insertionSort migrationLE _
  have hndp : ((computePlan applied ms).map Migration.id).Nodup := by
    have h1 : ((ms.filter fun mg => (applied.lookup mg.id).isNone).map
        Migration.id).Nodup :=
      ((List.filter_sublist ms).map Migration.id).nodup hnd
    have h2 : ((computePlan applied ms).map Migration.id).Perm
        ((ms.filter fun mg => (applied.lookup mg.id).isNone).map Migration.id) :=
      (List.perm_insertionSort migrationLE _).map Migration.id
    exact h2.nodup_iff.mpr h1
  have hne : List.Pairwise (fun a b : Migration => a.id ≠ b.id)
      (computePlan applied ms) := by
    rw [List.Nodup, List.pairwise_map] at hndp
    exact hndp
  exact (hle.and hne).imp (fun h => migrationLT_of_le_of_ne h.1 h.2)

/-- Claim C5: for every applied-migration ledger and supplied migration
list, the computed execution plan contains exactly the supplied migrations
whose ID is not a key of the ledger map, is sorted ascending by ID under
lexicographic string order, and (for duplicate-free IDs) is independent of
the order in which the migrations were supplied. -/
theorem computePlan_spec :
    ∀ (applied : List (String × AppliedMigration)) (ms : List Migration),
      (∀ mg, mg ∈ computePlan applied ms ↔
        mg ∈ ms ∧ applied.lookup mg.id = none) ∧
      List.Sorted migrationLE (computePlan applied ms) ∧
      (∀ ms', ms.Perm ms' → (ms.map Migration.id).Nodup →
        computePlan applied ms = computePlan applied ms') := by
  intro applied ms
  refine ⟨fun mg => mem_computePlan applied ms mg,
    List.sorted_insertionSort migrationLE _, ?_⟩
  intro ms' hperm hnd
  have hnd' : (ms'.map Migration.id).Nodup :=
    ((hperm.map Migration.id).nodup_iff).mp hnd
  have hp : (computePlan applied ms).Perm (computePlan applied ms') := by
    refine (List.perm_insertionSort migrationLE _).trans
      (List.Perm.trans ?_ (List.perm_insertionSort migrationLE _).symm)
    exact hperm.filter _
  exact List.eq_of_perm_of_sorted hp
    (computePlan_sorted_lt applied ms hnd)
    (computePlan_sorted_lt applied ms' hnd')

/-- Witness for C5 at a concrete ledger map and two orderings of a concrete
migration set. -/
theorem computePlan_spec_witness :
    ((⟨"b", "sb"⟩ : Migration) ∈
        computePlan [("a", rowOf ⟨"a", "sa"⟩)]
          [⟨"c", "sc"⟩, ⟨"a", "sa"⟩, ⟨"b", "sb"⟩] ↔
      (⟨"b", "sb"⟩ : Migration) ∈ [⟨"c", "sc"⟩, ⟨"a", "sa"⟩, ⟨"b", "sb"⟩] ∧
        ([("a", rowOf ⟨"a", "sa"⟩)].lookup "b") = none) ∧
    List.Sorted migrationLE
      (computePlan [("a", rowOf ⟨"a", "sa"⟩)]
        [⟨"c", "sc"⟩, ⟨"a", "sa"⟩, ⟨"b", "sb"⟩]) ∧
    computePlan [("a", rowOf ⟨"a", "sa"⟩)]
        [⟨"c", "sc"⟩, ⟨"a", "sa"⟩, ⟨"b", "sb"⟩] =
      computePlan [("a", rowOf ⟨"a", "sa"⟩)]
        [⟨"b", "sb"⟩, ⟨"c", "sc"⟩, ⟨"a", "sa"⟩] := by
  obtain ⟨hmem, hsort, huni⟩ :=
    computePlan_spec [("a", rowOf ⟨"a", "sa"⟩)]
      [⟨"c", "sc"⟩, ⟨"a", "sa"⟩, ⟨"b", "sb"⟩]
  exact ⟨hmem _, hsort,
    huni [⟨"b", "sb"⟩, ⟨"c", "sc"⟩, ⟨"a", "sa"⟩] (by decide) (by decide)⟩

/-- Claim C6 counterexample: two Migrators whose (SchemaName, TableName)
pairs differ — same table, different schema — compute equal lock keys, and
the hashing step received identical inputs (equal table names), so the
collision is structural, not a hash accident: differing pairs do not imply
differing lock keys. -/
theorem advisoryLockID_ignores_schema_cex :
    ({ schemaName := "public", tableName := "schema_migrations" } : Migrator) ≠
      { schemaName := "other", tableName := "schema_migrations" } ∧
    Migrator.AdvisoryLockID
        { schemaName := "public", tableName := "schema_migrations" } =
      Migrator.AdvisoryLockID
        { schemaName := "other", tableName := "schema_migrations" } ∧
    ({ schemaName := "public", tableName := "schema_migrations" } : Migrator).tableName =
      ({ schemaName := "other", tableName := "schema_migrations" } : Migrator).tableName :=
  ⟨by decide, rfl, rfl⟩

/-- Claim C6 amended: the lock key is a function of TableName alone —
SchemaName is ignored, so Migrators with equal TableNames (equal pairs in
particular) compute equal lock keys even when their schemas differ, and two
lock keys are equal exactly when the hashing step (CRC-32 of the table name
times the salt, in `uint32` arithmetic) yields equal values. -/
theorem advisoryLockID_spec :
    (∀ m1 m2 : Migrator, m1.tableName = m2.tableName →
      m1.AdvisoryLockID = m2.AdvisoryLockID) ∧
    (∀ m1 m2 : Migrator,
      m1.AdvisoryLockID = m2.AdvisoryLockID ↔
        advisoryLockKey m1.tableName = advisoryLockKey m2.tableName) := by
  constructor
  · intro m1 m2 h
    unfold Migrator.AdvisoryLockID
    rw [h]
  · intro m1 m2
    constructor
    · exact fun h => natToString_injective h
    · intro h
      unfold Migrator.AdvisoryLockID
      rw [h]

/-- Witness for C6 amended: equal table names with different schemas share a
key; concrete distinct table names get distinct keys via the key iff. -/
theorem advisoryLockID_spec_witness :
    Migrator.AdvisoryLockID { schemaName := "a", tableName := "t" } =
      Migrator.AdvisoryLockID { schemaName := "b", tableName := "t" } ∧
    Migrator.AdvisoryLockID { schemaName := "", tableName := "t" } ≠
      Migrator.AdvisoryLockID { schemaName := "", tableName := "u" } := by
  constructor
  · exact advisoryLockID_spec.1 _ _ rfl
  · intro h
    have h2 := (advisoryLockID_spec.2
      { schemaName := "", tableName := "t" }
      { schemaName := "", tableName := "u" }).mp h
    exact absurd h2 (by decide)

/-- Claim C7 (code bug): `QuotedIdent` escapes an embedded double quote by
doubling it rather than stripping it, so the identifier from the test
`TestQuotedIdent` of the package itself is quoted as `"table""with""quotes"""` instead of
the expected `"tablewithquotes"`; whitespace and semicolons are stripped and
`QuotedTableName "public" "users"` composes as specified. -/
theorem quotedIdent_doubles_not_strips :
    QuotedIdent "table\x22with\x22quotes\x22" =
      "\x22table\x22\x22with\x22\x22quotes\x22\x22\x22" ∧
    QuotedIdent "table\x22with\x22quotes\x22" ≠ "\x22tablewithquotes\x22" ∧
    QuotedIdent "one;two three" = "\x22onetwothree\x22" ∧
    QuotedTableName "public" "users" = "\x22public\x22.\x22users\x22" := by
  refine ⟨by decide, by decide, by decide, by decide⟩

/-- Claim C10: the plan-computation section of `Apply` never mutates the
caller-supplied migrations slice: the filtering loop appends into a freshly
allocated plan slice and `SortMigrations` sorts that fresh slice only, so
after the section the `migrations` variable holds the same elements in the
same order, while `plan` holds the filtered, ID-sorted copy. -/
theorem planSection_frame :
    ∀ (migrations : List Migration) (applied : List (String × AppliedMigration)),
      (planSection migrations applied).migrations = migrations ∧
      (planSection migrations applied).plan = computePlan applied migrations := by
  intro migrations applied
  refine ⟨rfl, ?_⟩
  show SortMigrations
      (migrations.foldl
        (fun p mg => if (applied.lookup mg.id).isNone then p ++ [mg] else p) []) =
    computePlan applied migrations
  rw [foldl_append_filter (fun mg => (applied.lookup mg.id).isNone) migrations []]
  rw [List.nil_append, computePlan]

/-- Claim C9: `GetAppliedMigrations` returns, error-free, a map whose keys
cover every row of the tracking table when the table exists; the underlying
retrieval is ordered by id ascending; and when the tracking table does not
exist the call surfaces an error instead of an empty result. -/
theorem getAppliedMigrations_spec :
    ∀ (m : Migrator) (st : DBState),
      (st.tableExists = true →
        (m.GetAppliedMigrations st).2.2 = none ∧
        ∀ r ∈ st.ledger,
          (((m.GetAppliedMigrations st).2.1).lookup r.id).isSome = true) ∧
      List.Sorted appliedLE (selectAppliedRows st.ledger) ∧
      (st.tableExists = false →
        (m.GetAppliedMigrations st).2.2 = some errNoSuchTable) := by
  intro m st
  refine ⟨?_, List.sorted_insertionSort appliedLE st.ledger, ?_⟩
  · intro ht
    constructor
    · simp [Migrator.GetAppliedMigrations, ht]
    · intro r hr
      simp only [Migrator.GetAppliedMigrations, ht, if_true]
      rw [buildAppliedMap_lookup_isSome]
      exact List.mem_map_of_mem AppliedMigration.id
        ((selectAppliedRows_perm st.ledger).symm.subset hr)
  · intro hf
    simp [Migrator.GetAppliedMigrations, hf]

/-- Witness for C9 at a concrete two-row table and at an absent table. -/
theorem getAppliedMigrations_spec_witness :
    ((NewMigrator.GetAppliedMigrations
        { tableExists := true,
          ledger := [rowOf ⟨"b", "sb"⟩, rowOf ⟨"a", "sa"⟩], trace := [] }).2.2 =
       none ∧
     ∀ r ∈ [rowOf ⟨"b", "sb"⟩, rowOf ⟨"a", "sa"⟩],
       (((NewMigrator.GetAppliedMigrations
           { tableExists := true,
             ledger := [rowOf ⟨"b", "sb"⟩, rowOf ⟨"a", "sa"⟩],
             trace := [] }).2.1).lookup r.id).isSome = true) ∧
    (NewMigrator.GetAppliedMigrations initialDB).2.2 = some errNoSuchTable := by
  constructor
  · exact (getAppliedMigrations_spec NewMigrator
      { tableExists := true,
        ledger := [rowOf ⟨"b", "sb"⟩, rowOf ⟨"a", "sa"⟩], trace := [] }).1 rfl
  · exact (getAppliedMigrations_spec NewMigrator initialDB).2.2 rfl

/-- Claim C3: once the execution transaction has begun, it commits exactly
when the wrapped body finishes without error and without panic; an error or
a panic rolls the transaction back, restoring the tracking table (and table
existence) to the pre-transaction snapshot, with the panic payload converted
into an ordinary returned error; and for the actual transactional section of
`Apply`, the tracking table afterwards holds either all ledger rows of the
plan (on success) or none of them (on failure). -/
theorem transaction_spec :
    ∀ (beh : DBBehavior) (st : DBState) (f : DBState → DBState × TxOutcome),
      beh.beginErr = none →
      ((∀ stf, f (recordOp st .beginTx) = (stf, .ok) →
          transaction beh false st f = (recordOp stf .commitTx, none)) ∧
       (∀ stf e, f (recordOp st .beginTx) = (stf, .err e) →
          transaction beh false st f =
            (recordOp
              { stf with ledger := st.ledger, tableExists := st.tableExists }
              .rollbackTx, some e)) ∧
       (∀ stf p, f (recordOp st .beginTx) = (stf, .panicked p) →
          transaction beh false st f =
            (recordOp
              { stf with ledger := st.ledger, tableExists := st.tableExists }
              .rollbackTx, some p)) ∧
       ((transaction beh false st f).2 = none ↔
          (f (recordOp st .beginTx)).2 = .ok) ∧
       (∀ (m : Migrator) (ms : List Migration),
          st.tableExists = true →
          ((transaction beh false st (applyTxBody m beh ms)).2 = none →
            (transaction beh false st (applyTxBody m beh ms)).1.ledger =
              st.ledger ++
                (computePlan (buildAppliedMap (selectAppliedRows st.ledger))
                  ms).map rowOf) ∧
          ((transaction beh false st (applyTxBody m beh ms)).2 ≠ none →
            (transaction beh false st (applyTxBody m beh ms)).1.ledger =
              st.ledger))) := by
  intro beh st f hb
  refine ⟨?_, ?_, ?_, ?_, ?_⟩
  · intro stf hf
    simp [transaction, hb, hf]
  · intro stf e hf
    simp [transaction, hb, hf]
  · intro stf p hf
    simp [transaction, hb, hf]
  · rcases hf : f (recordOp st .beginTx) with ⟨stf, out⟩
    rcases out with _ | e | p <;> simp [transaction, hb, hf]
  · intro m ms ht
    have hbody : applyTxBody m beh ms (recordOp st .beginTx) =
        (match runMigrationList m beh
            (recordOp (recordOp st .beginTx) .queryLedger)
            (computePlan (buildAppliedMap (selectAppliedRows st.ledger)) ms) with
         | (st3, some e) => (st3, TxOutcome.err e)
         | (st3, none) => (st3, TxOutcome.ok)) := by
      simp [applyTxBody, Migrator.GetAppliedMigrations, recordOp, ht]
    rcases hrun : runMigrationList m beh
        (recordOp (recordOp st .beginTx) .queryLedger)
        (computePlan (buildAppliedMap (selectAppliedRows st.ledger)) ms)
      with ⟨st3, rr⟩
    rw [hrun] at hbody
    rcases rr with _ | e
    · have hled := runMigrationList_none_ledger m beh _ _ _ hrun
      simp only [recordOp] at hled
      have heq : transaction beh false st (applyTxBody m beh ms) =
          (recordOp st3 .commitTx, none) := by
        simp only [transaction, hb, Bool.false_eq_true, if_false]
        rw [hbody]
      rw [heq]
      constructor
      · intro _
        simpa [recordOp] using hled
      · intro hcontra
        exact absurd rfl hcontra
    · have heq : transaction beh false st (applyTxBody m beh ms) =
          (recordOp
            { st3 with ledger := st.ledger, tableExists := st.tableExists }
            .rollbackTx, some e) := by
        simp only [transaction, hb, Bool.false_eq_true, if_false]
        rw [hbody]
      rw [heq]
      constructor
      · intro hcontra
        simp at hcontra
      · intro _
        simp [recordOp]

/-- Witness for C3: a body that panics with payload "runtime error: boom"
after writing a pending row is rolled back — the ledger stays empty — and
the panic surfaces as the ordinary error value `some "runtime error: boom"`. -/
theorem transaction_spec_witness :
    transaction benignDB false initialDB
        (fun s => ({ s with ledger := s.ledger ++ [rowOf ⟨"a", "sa"⟩] },
          .panicked "runtime error: boom")) =
      ({ tableExists := false, ledger := [],
         trace := [DBOp.beginTx, DBOp.rollbackTx] },
       some "runtime error: boom") := by
  have h := (transaction_spec benignDB initialDB
      (fun s => ({ s with ledger := s.ledger ++ [rowOf ⟨"a", "sa"⟩] },
        .panicked "runtime error: boom")) rfl).2.2.1
      { recordOp initialDB .beginTx with
        ledger := initialDB.ledger ++ [rowOf ⟨"a", "sa"⟩] }
      "runtime error: boom" rfl
  simpa [recordOp, initialDB] using h

/-- Claim C8: when the advisory lock was taken and its release fails, an
error from the body of `Apply` is returned as the primary error with the
release failure appended to it — never replaced by it — and when the body
succeeded, the release failure itself is returned rather than swallowed. -/
theorem apply_unlock_error_spec :
    ∀ (m : Migrator) (beh : DBBehavior) (st : DBState) (ms : List Migration)
      (u : String),
      beh.lockErr = none → beh.unlockErr = some u →
      ((∀ e,
          (applyBody m beh false ms
            (recordOp st (.acquireLock (advisoryLockKey m.tableName)))).2 =
              some e →
          (m.Apply beh false ms st).2 =
            some ("error unlocking while returning from other err: " ++
              e ++ "\n" ++ u)) ∧
       ((applyBody m beh false ms
          (recordOp st (.acquireLock (advisoryLockKey m.tableName)))).2 =
            none →
        (m.Apply beh false ms st).2 = some u)) := by
  intro m beh st ms u hl hu
  rw [apply_eq_combine m beh ms st hl]
  constructor
  · intro e he
    simp [he, hu, combineUnlockErr]
  · intro he
    simp [he, hu, combineUnlockErr]

lemma scriptOps_append (a b : List DBOp) :
    scriptOps (a ++ b) = scriptOps a ++ scriptOps b :=
  List.filterMap_append a b _

lemma scriptOps_flatMap (l : List Migration) :
    scriptOps (l.flatMap opsOf) = l.map (fun mg => (mg.id, mg.script)) := by
  induction l with
  | nil => simp [scriptOps]
  | cons mg rest ih => simp [scriptOps, opsOf, List.flatMap_cons,
      List.filterMap_append, ← ih]

lemma scriptOps_nil : scriptOps [] = [] := rfl

lemma scriptOps_acquire (k : Nat) (tr : List DBOp) :
    scriptOps (.acquireLock k :: tr) = scriptOps tr := rfl

lemma scriptOps_release (k : Nat) (tr : List DBOp) :
    scriptOps (.releaseLock k :: tr) = scriptOps tr := rfl

lemma scriptOps_begin (tr : List DBOp) :
    scriptOps (.beginTx :: tr) = scriptOps tr := rfl

lemma scriptOps_commit (tr : List DBOp) :
    scriptOps (.commitTx :: tr) = scriptOps tr := rfl

lemma scriptOps_rollback (tr : List DBOp) :
    scriptOps (.rollbackTx :: tr) = scriptOps tr := rfl

lemma scriptOps_create (tr : List DBOp) :
    scriptOps (.createTable :: tr) = scriptOps tr := rfl

lemma scriptOps_query (tr : List DBOp) :
    scriptOps (.queryLedger :: tr) = scriptOps tr := rfl

lemma scriptOps_insert (i : String) (tr : List DBOp) :
    scriptOps (.insertRow i :: tr) = scriptOps tr := rfl

lemma scriptOps_exec (i s : String) (tr : List DBOp) :
    scriptOps (.execScript i s :: tr) = (i, s) :: scriptOps tr := rfl

lemma strContains_failMsg_id (id u : String) : strContains (failMsg id u) id :=
  ⟨"Migration \x27", "\x27 Failed:\n" ++ u, by
    rw [failMsg]
    exact String.append_assoc _ _ _⟩

lemma strContains_failMsg_msg (id u : String) : strContains (failMsg id u) u :=
  ⟨"Migration \x27" ++ id ++ "\x27 Failed:\n", "", by
    rw [failMsg, String.append_empty]⟩

/-- Claim C2: if the i-th migration of the plan computed inside `Apply`
fails, every earlier planned migration having succeeded, then exactly the
first i+1 planned scripts were attempted — no migration after position i is
ever executed — and the error returned by `Apply` is the ID of the failing
migration wrapped around the underlying database message, containing both. -/
theorem apply_script_failure_spec :
    ∀ (m : Migrator) (beh : DBBehavior) (st : DBState)
      (ms plan : List Migration) (i : Nat) (u : String),
      beh.lockErr = none → beh.beginErr = none → beh.createErr = none →
      beh.unlockErr = none →
      plan = computePlan (buildAppliedMap (selectAppliedRows st.ledger)) ms →
      ∀ (hi : i < plan.length),
      (∀ mg ∈ plan.take i,
        beh.scriptErr mg.script = none ∧ beh.insertErr mg.id = none) →
      beh.scriptErr (plan.get ⟨i, hi⟩).script = some u →
      scriptOps (m.Apply beh false ms st).1.trace =
        scriptOps st.trace ++
          (plan.take (i + 1)).map (fun mg => (mg.id, mg.script)) ∧
      (m.Apply beh false ms st).2 = some (failMsg (plan.get ⟨i, hi⟩).id u) ∧
      strContains (failMsg (plan.get ⟨i, hi⟩).id u) (plan.get ⟨i, hi⟩).id ∧
      strContains (failMsg (plan.get ⟨i, hi⟩).id u) u := by
  intro m beh st ms plan i u hl hb hc hu hplan hi hprev hfail
  subst hplan
  rw [apply_eq_combine m beh ms st hl, applyBody_eq m beh ms _ hb hc]
  simp only [recordOp]
  rw [runMigrationList_failAt m beh _ i _ u hi hprev hfail]
  have htake : (computePlan (buildAppliedMap (selectAppliedRows st.ledger))
        ms).take (i + 1) =
      (computePlan (buildAppliedMap (selectAppliedRows st.ledger)) ms).take i ++
        [(computePlan (buildAppliedMap (selectAppliedRows st.ledger)) ms).get
          ⟨i, hi⟩] := by
    rw [List.take_succ, List.getElem?_eq_getElem hi]
    simp
  refine ⟨?_, ?_, strContains_failMsg_id _ _, strContains_failMsg_msg _ _⟩
  · simp only [htake, List.map_append, List.map_cons, List.map_nil]
    simp [scriptOps_append, scriptOps_flatMap, scriptOps_nil, scriptOps_acquire,
      scriptOps_release, scriptOps_begin, scriptOps_commit, scriptOps_rollback,
      scriptOps_create, scriptOps_query, scriptOps_insert, scriptOps_exec,
      hu, combineUnlockErr, preTxTrace, List.append_assoc]
  · simp [hu, combineUnlockErr]

/-- Claim C1 counterexample: on the default Migrator with an all-successful
non-nil connection, `Apply` with an empty migration slice does return
success, but its call trace is nonempty — the advisory lock is taken, the
tracking table is provisioned and a transaction is opened — refuting "zero
database operations". -/
theorem apply_empty_touches_db_cex :
    (NewMigrator.Apply benignDB false [] initialDB).2 = none ∧
    (NewMigrator.Apply benignDB false [] initialDB).1.trace ≠ [] :=
  ⟨by decide, by decide⟩

/-- Claim C1 amended: `Apply` with an empty migration slice executes no
script and inserts no ledger row, leaving the tracking-table contents
unchanged, but it does interact with the database: when the connection
cooperates it still acquires and releases the advisory lock, provisions the
tracking table, and opens and commits transactions, returning success. -/
theorem apply_empty_spec :
    ∀ (m : Migrator) (beh : DBBehavior) (st : DBState),
      scriptOps (m.Apply beh false [] st).1.trace = scriptOps st.trace ∧
      (m.Apply beh false [] st).1.trace.countP isInsertRow =
        st.trace.countP isInsertRow ∧
      (m.Apply beh false [] st).1.ledger = st.ledger ∧
      (beh.lockErr = none → beh.beginErr = none → beh.createErr = none →
        beh.unlockErr = none →
        (m.Apply beh false [] st).2 = none ∧
        (m.Apply beh false [] st).1.trace.countP isAcquireLock =
          st.trace.countP isAcquireLock + 1 ∧
        (m.Apply beh false [] st).1.trace.countP isReleaseLock =
          st.trace.countP isReleaseLock + 1 ∧
        (m.Apply beh false [] st).1.trace.countP isBeginTx =
          st.trace.countP isBeginTx + 2 ∧
        (m.Apply beh false [] st).1.trace.countP isCommitTx =
          st.trace.countP isCommitTx + 2) := by
  intro m beh st
  rcases hl : beh.lockErr with _ | el
  case some =>
    refine ⟨?_, ?_, ?_, ?_⟩
    · simp [Migrator.Apply, Migrator.lock, hl, recordOp, scriptOps_append,
        scriptOps_acquire, scriptOps_nil]
    · simp [Migrator.Apply, Migrator.lock, hl, recordOp, List.countP_append,
        List.countP_cons, List.countP_nil, isInsertRow]
    · simp [Migrator.Apply, Migrator.lock, hl, recordOp]
    · intro h1
      exact Option.noConfusion h1
  case none =>
    rw [apply_eq_combine m beh [] st hl]
    rcases hb : beh.beginErr with _ | eb
    case some =>
      refine ⟨?_, ?_, ?_, ?_⟩
      · simp [applyBody, Migrator.createMigrationsTable, transaction, hb,
          recordOp, scriptOps_append, scriptOps_acquire, scriptOps_begin,
          scriptOps_release, scriptOps_nil, List.append_assoc]
      · simp [applyBody, Migrator.createMigrationsTable, transaction, hb,
          recordOp, List.countP_append, List.countP_cons, List.countP_nil,
          isInsertRow, List.append_assoc]
      · simp [applyBody, Migrator.createMigrationsTable, transaction, hb,
          recordOp]
      · intro _ h2
        exact Option.noConfusion h2
    case none =>
      rcases hc : beh.createErr with _ | ec
      case some =>
        refine ⟨?_, ?_, ?_, ?_⟩
        · simp [applyBody, Migrator.createMigrationsTable, transaction, hb, hc,
            recordOp, scriptOps_append, scriptOps_acquire, scriptOps_begin,
            scriptOps_create, scriptOps_rollback, scriptOps_release,
            scriptOps_nil, List.append_assoc]
        · simp [applyBody, Migrator.createMigrationsTable, transaction, hb, hc,
            recordOp, List.countP_append, List.countP_cons, List.countP_nil,
            isInsertRow, List.append_assoc]
        · simp [applyBody, Migrator.createMigrationsTable, transaction, hb, hc,
            recordOp]
        · intro _ _ h3
          exact Option.noConfusion h3
      case none =>
        rw [applyBody_eq m beh [] _ hb hc]
        have hplan0 : ∀ L, computePlan (buildAppliedMap (selectAppliedRows L))
            ([] : List Migration) = [] := by
          intro L
          rfl
        rw [hplan0]
        refine ⟨?_, ?_, ?_, ?_⟩
        · simp [runMigrationList, recordOp, preTxTrace, scriptOps_append,
            scriptOps_acquire, scriptOps_begin, scriptOps_create,
            scriptOps_commit, scriptOps_query, scriptOps_release,
            scriptOps_nil, List.append_assoc]
        · simp [runMigrationList, recordOp, preTxTrace, List.countP_append,
            List.countP_cons, List.countP_nil, isInsertRow, List.append_assoc]
        · simp [runMigrationList, recordOp]
        · intro _ _ _ h4
          rw [h4]
          refine ⟨by simp [runMigrationList, combineUnlockErr], ?_, ?_, ?_, ?_⟩ <;>
            simp [runMigrationList, recordOp, preTxTrace, List.countP_append,
              List.countP_cons, List.countP_nil, isAcquireLock, isReleaseLock,
              isBeginTx, isCommitTx, List.append_assoc]

/-- Witness for C1 amended at the default Migrator, a cooperative
connection, and a fresh database. -/
theorem apply_empty_spec_witness :
    (NewMigrator.Apply benignDB false [] initialDB).1.ledger =
      initialDB.ledger ∧
    (NewMigrator.Apply benignDB false [] initialDB).2 = none ∧
    (NewMigrator.Apply benignDB false [] initialDB).1.trace.countP
        isAcquireLock =
      initialDB.trace.countP isAcquireLock + 1 := by
  have h := apply_empty_spec NewMigrator benignDB initialDB
  exact ⟨h.2.2.1, (h.2.2.2 rfl rfl rfl rfl).1, (h.2.2.2 rfl rfl rfl rfl).2.1⟩

lemma apply_benign_covers (ms : List Migration) (st : DBState)
    (mg : Migration) (hmg : mg ∈ ms) :
    ((buildAppliedMap (selectAppliedRows (st.ledger ++
        (computePlan (buildAppliedMap (selectAppliedRows st.ledger)) ms).map
          rowOf))).lookup mg.id).isSome = true := by
  rw [buildAppliedMap_lookup_isSome]
  have hperm := (selectAppliedRows_perm (st.ledger ++
    (computePlan (buildAppliedMap (selectAppliedRows st.ledger)) ms).map
      rowOf)).map AppliedMigration.id
  rw [hperm.mem_iff, List.map_append]
  rcases hlook : (buildAppliedMap (selectAppliedRows st.ledger)).lookup mg.id
    with _ | row
  · have hin : mg ∈ computePlan (buildAppliedMap (selectAppliedRows st.ledger)) ms :=
      (mem_computePlan _ _ _).mpr ⟨hmg, hlook⟩
    refine List.mem_append.mpr (Or.inr ?_)
    rw [List.map_map]
    exact List.mem_map.mpr ⟨mg, hin, by simp [rowOf]⟩
  · have hsome : ((buildAppliedMap (selectAppliedRows st.ledger)).lookup
        mg.id).isSome := by
      rw [hlook]
      rfl
    have hmem := (buildAppliedMap_lookup_isSome _ _).mp hsome
    have hperm2 := (selectAppliedRows_perm st.ledger).map AppliedMigration.id
    exact List.mem_append.mpr (Or.inl (hperm2.mem_iff.mp hmem))

lemma plan_after_benign_empty (ms : List Migration) (st : DBState) :
    computePlan (buildAppliedMap (selectAppliedRows (st.ledger ++
        (computePlan (buildAppliedMap (selectAppliedRows st.ledger)) ms).map
          rowOf))) ms = [] := by
  rw [computePlan]
  have hfil : ms.filter (fun mg =>
      ((buildAppliedMap (selectAppliedRows (st.ledger ++
        (computePlan (buildAppliedMap (selectAppliedRows st.ledger)) ms).map
          rowOf))).lookup mg.id).isNone) = [] := by
    refine List.filter_eq_nil_iff.mpr ?_
    intro mg hmg
    have hcov := apply_benign_covers ms st mg hmg
    simp only [Option.isNone_iff_eq_none]
    intro hnone
    rw [hnone] at hcov
    exact Bool.noConfusion hcov
  rw [hfil]
  rfl

/-- Claim C4: applying the same duplicate-free migration set twice in
sequence over a cooperative connection succeeds both times; the second call
computes an empty plan, executes no script and leaves the ledger rows
written by the first call unchanged, while still acquiring and releasing
the advisory lock once and opening and committing two transactions
(provisioning and execution). -/
theorem apply_idempotent_spec :
    ∀ (m : Migrator) (beh : DBBehavior) (ms : List Migration) (st : DBState),
      beh.lockErr = none → beh.beginErr = none → beh.createErr = none →
      beh.unlockErr = none → (∀ s, beh.scriptErr s = none) →
      (∀ i, beh.insertErr i = none) → (ms.map Migration.id).Nodup →
      (m.Apply beh false ms st).2 = none ∧
      computePlan
        (buildAppliedMap (selectAppliedRows (m.Apply beh false ms st).1.ledger))
        ms = [] ∧
      (m.Apply beh false ms (m.Apply beh false ms st).1).2 = none ∧
      (m.Apply beh false ms (m.Apply beh false ms st).1).1.ledger =
        (m.Apply beh false ms st).1.ledger ∧
      scriptOps (m.Apply beh false ms (m.Apply beh false ms st).1).1.trace =
        scriptOps (m.Apply beh false ms st).1.trace ∧
      (m.Apply beh false ms (m.Apply beh false ms st).1).1.trace.countP
          isAcquireLock =
        (m.Apply beh false ms st).1.trace.countP isAcquireLock + 1 ∧
      (m.Apply beh false ms (m.Apply beh false ms st).1).1.trace.countP
          isReleaseLock =
        (m.Apply beh false ms st).1.trace.countP isReleaseLock + 1 ∧
      (m.Apply beh false ms (m.Apply beh false ms st).1).1.trace.countP
          isBeginTx =
        (m.Apply beh false ms st).1.trace.countP isBeginTx + 2 ∧
      (m.Apply beh false ms (m.Apply beh false ms st).1).1.trace.countP
          isCommitTx =
        (m.Apply beh false ms st).1.trace.countP isCommitTx + 2 := by
  intro m beh ms st hl hb hc hu hs hins _hnd
  have h1 := apply_benign_eq m beh ms st hl hb hc hu hs hins
  have hplan2 := plan_after_benign_empty ms st
  have h2 := apply_benign_eq m beh ms
    { tableExists := true,
      ledger := st.ledger ++
        (computePlan (buildAppliedMap (selectAppliedRows st.ledger)) ms).map
          rowOf,
      trace := st.trace ++ [.acquireLock (advisoryLockKey m.tableName)] ++
        preTxTrace ++
        (computePlan (buildAppliedMap (selectAppliedRows st.ledger)) ms).flatMap
          opsOf ++
        [.commitTx, .releaseLock (advisoryLockKey m.tableName)] }
    hl hb hc hu hs hins
  simp only [hplan2, List.map_nil, List.append_nil, List.flatMap_nil] at h2
  have hfst : (m.Apply beh false ms st).1 =
      { tableExists := true,
        ledger := st.ledger ++
          (computePlan (buildAppliedMap (selectAppliedRows st.ledger)) ms).map
            rowOf,
        trace := st.trace ++ [.acquireLock (advisoryLockKey m.tableName)] ++
          preTxTrace ++
          (computePlan (buildAppliedMap (selectAppliedRows st.ledger)) ms).flatMap
            opsOf ++
          [.commitTx, .releaseLock (advisoryLockKey m.tableName)] } := by
    rw [h1]
  have hsnd : (m.Apply beh false ms st).2 = none := by rw [h1]
  rw [hfst, hsnd, h2]
  refine ⟨rfl, hplan2, rfl, rfl, ?_, ?_, ?_, ?_, ?_⟩
  · simp [preTxTrace, scriptOps_append, scriptOps_flatMap, scriptOps_acquire,
      scriptOps_begin, scriptOps_create, scriptOps_commit, scriptOps_query,
      scriptOps_release, scriptOps_nil, List.append_assoc]
  all_goals
    simp [preTxTrace, List.countP_append, List.countP_cons, List.countP_nil,
      isAcquireLock, isReleaseLock, isBeginTx, isCommitTx, List.append_assoc]
  all_goals omega

/-- Witness for C4 at a concrete two-migration set over a fresh database. -/
theorem apply_idempotent_spec_witness :
    (Migrator.Apply { schemaName := "", tableName := "t" } benignDB false
        [⟨"b", "sb"⟩, ⟨"a", "sa"⟩] initialDB).2 = none ∧
    (Migrator.Apply { schemaName := "", tableName := "t" } benignDB false
        [⟨"b", "sb"⟩, ⟨"a", "sa"⟩]
        (Migrator.Apply { schemaName := "", tableName := "t" } benignDB false
          [⟨"b", "sb"⟩, ⟨"a", "sa"⟩] initialDB).1).2 = none ∧
    (Migrator.Apply { schemaName := "", tableName := "t" } benignDB false
        [⟨"b", "sb"⟩, ⟨"a", "sa"⟩]
        (Migrator.Apply { schemaName := "", tableName := "t" } benignDB false
          [⟨"b", "sb"⟩, ⟨"a", "sa"⟩] initialDB).1).1.ledger =
      (Migrator.Apply { schemaName := "", tableName := "t" } benignDB false
        [⟨"b", "sb"⟩, ⟨"a", "sa"⟩] initialDB).1.ledger := by
  have h := apply_idempotent_spec { schemaName := "", tableName := "t" }
    benignDB [⟨"b", "sb"⟩, ⟨"a", "sa"⟩] initialDB rfl rfl rfl rfl
    (fun _ => rfl) (fun _ => rfl) (by decide)
  exact ⟨h.1, h.2.2.1, h.2.2.2.1⟩

/-- Witness for C2: with the script of the second planned migration failing, only
the two first planned scripts are attempted, in ID order, and the returned
error wraps the failing ID around the database message. -/
theorem apply_script_failure_witness :
    scriptOps (Migrator.Apply { schemaName := "", tableName := "t" }
        { benignDB with scriptErr := fun s =>
            if s = "sb" then some "syntax error near TIBBLE" else none }
        false [⟨"b", "sb"⟩, ⟨"a", "sa"⟩] initialDB).1.trace =
      [("a", "sa"), ("b", "sb")] ∧
    (Migrator.Apply { schemaName := "", tableName := "t" }
        { benignDB with scriptErr := fun s =>
            if s = "sb" then some "syntax error near TIBBLE" else none }
        false [⟨"b", "sb"⟩, ⟨"a", "sa"⟩] initialDB).2 =
      some (failMsg "b" "syntax error near TIBBLE") ∧
    strContains (failMsg "b" "syntax error near TIBBLE") "b" ∧
    strContains (failMsg "b" "syntax error near TIBBLE")
      "syntax error near TIBBLE" := by
  have h := apply_script_failure_spec { schemaName := "", tableName := "t" }
    { benignDB with scriptErr := fun s =>
        if s = "sb" then some "syntax error near TIBBLE" else none }
    initialDB [⟨"b", "sb"⟩, ⟨"a", "sa"⟩] [⟨"a", "sa"⟩, ⟨"b", "sb"⟩] 1
    "syntax error near TIBBLE" rfl rfl rfl rfl (by decide) (by decide)
    (by decide) (by decide)
  obtain ⟨hh1, hh2, hh3, hh4⟩ := h
  refine ⟨?_, ?_, hh3, hh4⟩
  · simpa using hh1
  · simpa using hh2

/-- Witness for C8: a tracking-table provisioning failure followed by an
unlock failure yields the provisioning error wrapped with the unlock detail
appended; with no earlier failure, the unlock error itself is returned. -/
theorem apply_unlock_error_spec_witness :
    (Migrator.Apply { schemaName := "", tableName := "t" }
        { benignDB with
          createErr := some "Create Migrations Table Failed",
          unlockErr := some "FAIL: SELECT pg_advisory_unlock" }
        false [] initialDB).2 =
      some ("error unlocking while returning from other err: " ++
        "Create Migrations Table Failed" ++ "\n" ++
        "FAIL: SELECT pg_advisory_unlock") ∧
    (Migrator.Apply { schemaName := "", tableName := "t" }
        { benignDB with unlockErr := some "FAIL: SELECT pg_advisory_unlock" }
        false [] initialDB).2 = some "FAIL: SELECT pg_advisory_unlock" := by
  constructor
  · exact (apply_unlock_error_spec { schemaName := "", tableName := "t" }
      { benignDB with
        createErr := some "Create Migrations Table Failed",
        unlockErr := some "FAIL: SELECT pg_advisory_unlock" }
      initialDB [] "FAIL: SELECT pg_advisory_unlock" rfl rfl).1
      "Create Migrations Table Failed" (by decide)
  · exact (apply_unlock_error_spec { schemaName := "", tableName := "t" }
      { benignDB with unlockErr := some "FAIL: SELECT pg_advisory_unlock" }
      initialDB [] "FAIL: SELECT pg_advisory_unlock" rfl rfl).2 (by decide)

end Pgxschema
